import Mathlib

/-!
Verification of the CITP PINF codec (`src/protocol/pinf.rs`).

The repository source under `src/` contains the PINF layer: the `Header`,
`Message<T>`, `PNam` and `PLoc` types together with their `WriteToBytes`,
`ReadFromBytes` and `SizeBytes` implementations, and the test
`test_ploc_message_read_bytes` with its 96-byte packet.

The underlying `protocol` module (the base CITP header and the primitive
codec for little-endian integers and null-terminated strings) is not under
`src/`; those parts are modelled from the spec, with their layout pinned by
the repository's own test vector where the spec and the test disagree.

Byte streams are modelled as `List Nat` (each element one byte); reads
return the decoded value together with the unconsumed rest of the stream,
which models the reader position of the Rust `ReadBytesExt` reader.
-/

namespace Citp

/-- Modelled from the spec (section 7): the error kinds of the codec.
The Rust code reports errors through `io::Result`; the spec names the
distinct failure conditions, which we keep as a separate constructor each. -/
inductive Err : Type where
  | BadMagic : Err
  | WrongLayer : Err
  | UnknownMessageTag : Nat → Err
  | UnterminatedString : Err
  | UnexpectedEof : Err
  | SizeMismatch : Err
deriving DecidableEq

instance {ε α : Type} [DecidableEq ε] [DecidableEq α] : DecidableEq (Except ε α) :=
  fun a b =>
    match a, b with
    | .ok x, .ok y =>
      if h : x = y then .isTrue (by rw [h]) else
        .isFalse (fun hc => h (by injection hc))
    | .ok _, .error _ => .isFalse (fun hc => by injection hc)
    | .error _, .ok _ => .isFalse (fun hc => by injection hc)
    | .error x, .error y =>
      if h : x = y then .isTrue (by rw [h]) else
        .isFalse (fun hc => h (by injection hc))

/-- Modelled from the spec: `write_u16_le` of the primitive codec, a fixed
2-byte little-endian encoding. Machine integers are `Nat` with explicit
reduction modulo 256 per emitted byte. -/
def writeU16LE (n : Nat) : List Nat :=
  [n % 256, n / 256 % 256]

/-- Modelled from the spec: `write_u32_le` of the primitive codec, a fixed
4-byte little-endian encoding. -/
def writeU32LE (n : Nat) : List Nat :=
  [n % 256, n / 256 % 256, n / 65536 % 256, n / 16777216 % 256]

/-- Modelled from the spec: `read_u16_le` consumes exactly 2 bytes and
fails with `UnexpectedEof` if fewer bytes remain. -/
def readU16LE : List Nat → Except Err (Nat × List Nat)
  | a :: b :: rest => .ok (a + 256 * b, rest)
  | _ => .error .UnexpectedEof

/-- Modelled from the spec: `read_u32_le` consumes exactly 4 bytes and
fails with `UnexpectedEof` if fewer bytes remain. -/
def readU32LE : List Nat → Except Err (Nat × List Nat)
  | a :: b :: c :: d :: rest => .ok (a + 256 * b + 65536 * c + 16777216 * d, rest)
  | _ => .error .UnexpectedEof

/-- A byte list with no interior zero byte: the content invariant that the
Rust `CString` type maintains by construction. -/
def NoNul (l : List Nat) : Prop := ∀ b ∈ l, b ≠ 0

instance (l : List Nat) : Decidable (NoNul l) :=
  List.decidableBAll (fun b => b ≠ 0) l

/-- The model of Rust's `std::ffi::CString`: the bytes of the string
together with the by-construction guarantee that none of them is zero. -/
abbrev CStr : Type := { l : List Nat // NoNul l }

/-- Modelled from the spec: `read_cstring` scanning — consume bytes until
(and including) the first zero byte, returning the content before the zero
and the rest of the stream after it; `none` when the stream ends before a
terminator is found. The returned content carries the no-interior-zero
invariant, which holds because scanning stopped at the first zero. -/
def takeUntilNul : List Nat → Option (CStr × List Nat)
  | [] => none
  | b :: rest =>
    if hb : b = 0 then some (⟨[], fun x hx => absurd hx (List.not_mem_nil x)⟩, rest)
    else
      match takeUntilNul rest with
      | none => none
      | some (c, r) =>
        some (⟨b :: c.val, fun x hx => by
          rcases List.mem_cons.mp hx with h | h
          · rw [h]; exact hb
          · exact c.prop x h⟩, r)

/-- Modelled from the spec: `read_cstring(reader)` — consumes bytes until
and including the first zero byte; fails with `UnterminatedString` if the
stream ends before a terminator is found. -/
def readCString (buf : List Nat) : Except Err (CStr × List Nat) :=
  match takeUntilNul buf with
  | some (s, r) => .ok (s, r)
  | none => .error .UnterminatedString

/-- Modelled from the spec: `write_cstring(bytes)` on raw content — appends
a single zero byte after the content; fails (returns `none`) if the content
itself contains an embedded zero byte. -/
def writeCStringChecked (l : List Nat) : Option (List Nat) :=
  if NoNul l then some (l ++ [0]) else none

/-- Writing a `CStr` value: its content followed by the single null
terminator. Total, because a `CStr` has no interior zero by construction. -/
def CStr.write (s : CStr) : List Nat := s.val ++ [0]

/-- Modelled from the spec: `size_of_cstring(bytes) = len(bytes) + 1`. -/
def sizeOfCString (l : List Nat) : Nat := l.length + 1

/-- Serialized size of a `CStr` value, per the primitive codec. -/
def CStr.size_bytes (s : CStr) : Nat := sizeOfCString s.val

/-- The `PNam` (peer name) payload of `src/protocol/pinf.rs`: a single
null-terminated display name. -/
structure PNam : Type where
  name : CStr
deriving DecidableEq

/-- The `PLoc` (peer location) payload of `src/protocol/pinf.rs`:
`listening_tcp_port` (u16), then the `kind`, `name` and `state` strings. -/
structure PLoc : Type where
  listening_tcp_port : Nat
  kind : CStr
  name : CStr
  state : CStr
deriving DecidableEq

/-- `SizeBytes for PNam` (pinf.rs lines 167-171). -/
def PNam.size_bytes (p : PNam) : Nat := p.name.size_bytes

/-- `SizeBytes for PLoc` (pinf.rs lines 173-180): `mem::size_of::<u16>()`
(which is 2) plus the cstring sizes of `kind`, `name` and `state`. -/
def PLoc.size_bytes (p : PLoc) : Nat :=
  2 + p.kind.size_bytes + p.name.size_bytes + p.state.size_bytes

/-- `WriteToBytes for PNam` (pinf.rs lines 107-112): write the name. -/
def PNam.write (p : PNam) : List Nat := p.name.write

/-- `WriteToBytes for PLoc` (pinf.rs lines 114-122): the port as u16 LE,
then `kind`, `name`, `state`, in that order. -/
def PLoc.write (p : PLoc) : List Nat :=
  writeU16LE p.listening_tcp_port ++ p.kind.write ++ p.name.write ++ p.state.write

/-- `WriteToBytes for PNam` routed through the fallible raw string
primitive, to show the embedded-NUL failure path is unreachable. -/
def PNam.writeChecked (p : PNam) : Option (List Nat) :=
  writeCStringChecked p.name.val

/-- `WriteToBytes for PLoc` routed through the fallible raw string
primitive, to show the embedded-NUL failure path is unreachable. -/
def PLoc.writeChecked (p : PLoc) : Option (List Nat) := do
  let k ← writeCStringChecked p.kind.val
  let n ← writeCStringChecked p.name.val
  let s ← writeCStringChecked p.state.val
  some (writeU16LE p.listening_tcp_port ++ k ++ n ++ s)

/-- `ReadFromBytes for PNam` (pinf.rs lines 143-149). -/
def readPNam (buf : List Nat) : Except Err (PNam × List Nat) :=
  match readCString buf with
  | .error e => .error e
  | .ok (n, r) => .ok (⟨n⟩, r)

/-- `ReadFromBytes for PLoc` (pinf.rs lines 151-165): port, kind, name,
state, consumed in declared order. -/
def readPLoc (buf : List Nat) : Except Err (PLoc × List Nat) :=
  match readU16LE buf with
  | .error e => .error e
  | .ok (port, r1) =>
    match readCString r1 with
    | .error e => .error e
    | .ok (k, r2) =>
      match readCString r2 with
      | .error e => .error e
      | .ok (n, r3) =>
        match readCString r3 with
        | .error e => .error e
        | .ok (s, r4) => .ok (⟨port, k, n, s⟩, r4)

/-- Modelled from the spec: the base CITP header (`protocol::Header`),
which is not under `src/`. The spec describes it as magic "CITP" + version
+ total_size + layer_tag; the repository's test vector (pinf.rs lines
182-202) fixes the concrete layout at 20 bytes, with one additional 32-bit
field (message partitioning info) between total_size and the layer tag and
the layer tag at byte offset 16. Fields in order after the 4 magic bytes:
`version` (u32), `total_size` (u32), `part_info` (u32), `layer_tag` (u32,
the four ASCII bytes of the layer code read little-endian). -/
structure CitpHeader : Type where
  version : Nat
  total_size : Nat
  part_info : Nat
  layer_tag : Nat
deriving DecidableEq

/-- The four magic bytes, ASCII "CITP". -/
def CITP_MAGIC : List Nat := [0x43, 0x49, 0x54, 0x50]

/-- Modelled from the spec: base header encode — emits the constant magic
followed by the u32 fields in declared order. -/
def CitpHeader.write (h : CitpHeader) : List Nat :=
  CITP_MAGIC ++ writeU32LE h.version ++ writeU32LE h.total_size ++
    writeU32LE h.part_info ++ writeU32LE h.layer_tag

/-- A base header whose u32 fields have been reduced modulo 2^32, as
decoding an encoded header yields. -/
def CitpHeader.norm (h : CitpHeader) : CitpHeader :=
  ⟨h.version % 4294967296, h.total_size % 4294967296,
   h.part_info % 4294967296, h.layer_tag % 4294967296⟩

/-- Modelled from the spec: base header decode — reads the 4 magic bytes
(failing with `UnexpectedEof` when fewer remain and with `BadMagic` when
they are not "CITP"), then the u32 fields in order. Per the spec it does
not validate `total_size` against the stream length. -/
def readCitpHeader : List Nat → Except Err (CitpHeader × List Nat)
  | m0 :: m1 :: m2 :: m3 :: rest =>
    if [m0, m1, m2, m3] = CITP_MAGIC then
      match readU32LE rest with
      | .error e => .error e
      | .ok (v, r1) =>
        match readU32LE r1 with
        | .error e => .error e
        | .ok (ts, r2) =>
          match readU32LE r2 with
          | .error e => .error e
          | .ok (pi, r3) =>
            match readU32LE r3 with
            | .error e => .error e
            | .ok (lt, r4) => .ok (⟨v, ts, pi, lt⟩, r4)
    else .error .BadMagic
  | _ => .error .UnexpectedEof

/-- The PINF `Header` of `src/protocol/pinf.rs` (lines 24-29): the base
CITP header followed by the PINF message content type (a u32 holding the
four ASCII tag bytes, e.g. "PNam" or "PLoc", read little-endian). -/
structure Header : Type where
  citp_header : CitpHeader
  content_type : Nat
deriving DecidableEq

/-- `WriteToBytes for Header` (pinf.rs lines 88-94): the base header, then
the content type as u32 LE. -/
def Header.write (h : Header) : List Nat :=
  h.citp_header.write ++ writeU32LE h.content_type

/-- A PINF header with u32 fields reduced modulo 2^32. -/
def Header.norm (h : Header) : Header :=
  ⟨h.citp_header.norm, h.content_type % 4294967296⟩

/-- `ReadFromBytes for Header` (pinf.rs lines 124-132): reads the base
header, then the content type. No validation of the layer tag or of the
content type is performed. -/
def readHeader (buf : List Nat) : Except Err (Header × List Nat) :=
  match readCitpHeader buf with
  | .error e => .error e
  | .ok (c, r1) =>
    match readU32LE r1 with
    | .error e => .error e
    | .ok (ct, r2) => .ok (⟨c, ct⟩, r2)

/-- The `Message<T>` layout of `src/protocol/pinf.rs` (lines 34-39):
the PINF header followed by the message payload. -/
structure Message (T : Type) : Type where
  pinf_header : Header
  message : T
deriving DecidableEq

/-- `WriteToBytes for Message<T>` (pinf.rs lines 96-105): the header, then
the payload via its own `WriteToBytes`, modelled by the function `wt`. -/
def writeMessage {T : Type} (wt : T → List Nat) (m : Message T) : List Nat :=
  m.pinf_header.write ++ wt m.message

/-- `Message<PLoc>` serialization, the instance the source exercises. -/
def writeMessagePLoc (m : Message PLoc) : List Nat :=
  writeMessage PLoc.write m

/-- `ReadFromBytes for Message<PLoc>` (pinf.rs lines 133-141): reads the
PINF header, then unconditionally reads a `PLoc`. The message tag just
read is not inspected. -/
def readMessagePLoc (buf : List Nat) : Except Err (Message PLoc × List Nat) :=
  match readHeader buf with
  | .error e => .error e
  | .ok (h, r1) =>
    match readPLoc r1 with
    | .error e => .error e
    | .ok (m, r2) => .ok (⟨h, m⟩, r2)

/-- The u32 value of the four ASCII bytes "PINF" read little-endian. -/
def PINF_TAG : Nat := 0x464e4950

/-- The u32 value of the four ASCII bytes "PLoc" read little-endian. -/
def PLOC_TAG : Nat := 0x636f4c50

/-- The 96-byte `PLoc` packet of the repository's test
`test_ploc_message_read_bytes` (pinf.rs lines 182-202), byte for byte. -/
def plocPacket : List Nat :=
  [0x43, 0x49, 0x54, 0x50, 0x01, 0x00, 0x00, 0x00, 0x60, 0x00, 0x00, 0x00, 0x01, 0x00, 0x00,
   0x00, 0x50, 0x49, 0x4e, 0x46, 0x50, 0x4c, 0x6f, 0x63, 0x4a, 0xfa, 0x56, 0x69, 0x73, 0x75,
   0x61, 0x6c, 0x69, 0x7a, 0x65, 0x72, 0x00, 0x43, 0x61, 0x70, 0x74, 0x75, 0x72, 0x65, 0x20,
   0x40, 0x20, 0x48, 0x75, 0x67, 0x6f, 0x73, 0x2d, 0x4d, 0x61, 0x63, 0x42, 0x6f, 0x6f, 0x6b,
   0x2d, 0x50, 0x72, 0x6f, 0x2e, 0x6c, 0x6f, 0x63, 0x61, 0x6c, 0x20, 0x28, 0x31, 0x39, 0x32,
   0x2e, 0x31, 0x36, 0x38, 0x2e, 0x31, 0x36, 0x38, 0x2e, 0x38, 0x30, 0x29, 0x00, 0x52, 0x75,
   0x6e, 0x6e, 0x69, 0x6e, 0x67, 0x00]

/-- The bytes of the ASCII string "Visualizer" (spelled with a z), as they
appear in the test packet's `kind` field. -/
def visualizerBytes : List Nat :=
  [0x56, 0x69, 0x73, 0x75, 0x61, 0x6c, 0x69, 0x7a, 0x65, 0x72]

/-- The bytes of the ASCII string "Visualiser" (spelled with an s), the
`kind` value asserted by the spec's literal scenario. -/
def visualiserBytes : List Nat :=
  [0x56, 0x69, 0x73, 0x75, 0x61, 0x6c, 0x69, 0x73, 0x65, 0x72]

/-- The bytes of the ASCII string
"Capture @ Hugos-MacBook-Pro.local (192.168.168.80)", the test packet's
`name` field. -/
def captureNameBytes : List Nat :=
  [0x43, 0x61, 0x70, 0x74, 0x75, 0x72, 0x65, 0x20, 0x40, 0x20, 0x48, 0x75, 0x67, 0x6f, 0x73,
   0x2d, 0x4d, 0x61, 0x63, 0x42, 0x6f, 0x6f, 0x6b, 0x2d, 0x50, 0x72, 0x6f, 0x2e, 0x6c, 0x6f,
   0x63, 0x61, 0x6c, 0x20, 0x28, 0x31, 0x39, 0x32, 0x2e, 0x31, 0x36, 0x38, 0x2e, 0x31, 0x36,
   0x38, 0x2e, 0x38, 0x30, 0x29]

/-- The bytes of the ASCII string "Running", the test packet's `state`. -/
def runningBytes : List Nat := [0x52, 0x75, 0x6e, 0x6e, 0x69, 0x6e, 0x67]

/-- The decoded form of `plocPacket`: base header with version 1,
total_size 96 (= 0x60), part_info 1 and layer tag "PINF"; content type
"PLoc"; then the `PLoc` payload with port 0xfa4a = 64074 and the three
strings of the packet. -/
def plocDecoded : Message PLoc :=
  ⟨⟨⟨1, 96, 1, PINF_TAG⟩, PLOC_TAG⟩,
   ⟨64074, ⟨visualizerBytes, by decide⟩, ⟨captureNameBytes, by decide⟩,
    ⟨runningBytes, by decide⟩⟩⟩

/-- Modelled from the spec (section 4.3): the envelope encode operation,
which is not under `src/` (the source writes a caller-supplied header
verbatim). Follows the spec's words exactly: total_size is the fixed
20-byte header overhead claimed by the spec plus the payload size, the
layer tag is "PINF", the version is the constant 1 (part_info is 1, as in
every observed packet: part count 1, part index 0). -/
def envelopeEncodeSpec (tag : Nat) (p : PLoc) : Message PLoc :=
  ⟨⟨⟨1, 20 + p.size_bytes, 1, PINF_TAG⟩, tag⟩, p⟩

/-- The envelope encode operation with the overhead the code's actual
layout dictates: a 20-byte base header plus the 4-byte message tag, hence
total_size = 24 + payload size. -/
def envelopeEncode (tag : Nat) (p : PLoc) : Message PLoc :=
  ⟨⟨⟨1, 24 + p.size_bytes, 1, PINF_TAG⟩, tag⟩, p⟩

/-- A minimal `PLoc` value: port 0 and three empty strings. -/
def emptyPLoc : PLoc :=
  ⟨0, ⟨[], by decide⟩, ⟨[], by decide⟩, ⟨[], by decide⟩⟩

/-- The u32 value of the four ASCII bytes "PNam" read little-endian. -/
def PNAM_TAG : Nat := 0x6d614e50

/-- A small sample `PNam` value, the name being the single byte "A". -/
def samplePNam : PNam := ⟨⟨[65], by decide⟩⟩

/-- A small sample `PLoc` value: port 258, kind "A", name "BC", state "D". -/
def samplePLoc : PLoc :=
  ⟨258, ⟨[65], by decide⟩, ⟨[66, 67], by decide⟩, ⟨[68], by decide⟩⟩

/-- A `Message<PLoc>` whose header chain is well formed (correct magic and
layer tag "PINF", total_size 29 matching the 29 encoded bytes) but whose
message tag is "XXXX" (0x58585858), outside the known set. -/
def unknownTagMsg : Message PLoc :=
  ⟨⟨⟨1, 29, 1, PINF_TAG⟩, 0x58585858⟩, emptyPLoc⟩

/-- A `Message<PLoc>` whose base-header layer tag is "XXXX" (0x58585858)
instead of the ASCII bytes "PINF". -/
def wrongLayerMsg : Message PLoc :=
  ⟨⟨⟨1, 29, 1, 0x58585858⟩, PLOC_TAG⟩, emptyPLoc⟩

/-- A `Message<PLoc>` whose declared total_size (9999) wildly disagrees
with its actual 29-byte encoding. -/
def badSizeMsg : Message PLoc :=
  ⟨⟨⟨1, 9999, 1, PINF_TAG⟩, PLOC_TAG⟩, emptyPLoc⟩

/-- Reading back a written u16 recovers the value reduced modulo 2^16 and
leaves the rest of the stream untouched. -/
theorem readU16LE_write (n : Nat) (r : List Nat) :
    readU16LE (writeU16LE n ++ r) = .ok (n % 65536, r) := by
  simp only [writeU16LE, List.cons_append, List.nil_append, readU16LE, Except.ok.injEq,
    Prod.mk.injEq, and_true]
  omega

/-- Reading back a written u32 recovers the value reduced modulo 2^32 and
leaves the rest of the stream untouched. -/
theorem readU32LE_write (n : Nat) (r : List Nat) :
    readU32LE (writeU32LE n ++ r) = .ok (n % 4294967296, r) := by
  simp only [writeU32LE, List.cons_append, List.nil_append, readU32LE, Except.ok.injEq,
    Prod.mk.injEq, and_true]
  omega

/-- Scanning a zero-free content followed by a zero terminator finds
exactly that content and consumes the terminator. -/
theorem takeUntilNul_append (l r : List Nat) :
    ∀ (hl : NoNul l), takeUntilNul (l ++ 0 :: r) = some (⟨l, hl⟩, r) := by
  induction l with
  | nil =>
    intro hl
    simp [takeUntilNul]
  | cons b t ih =>
    intro hl
    have hb : b ≠ 0 := hl b (List.mem_cons_self b t)
    have ht : NoNul t := fun x hx => hl x (List.mem_cons_of_mem b hx)
    simp [takeUntilNul, hb, ih ht]

/-- Reading back a written `CStr` recovers it exactly and leaves the rest
of the stream untouched. -/
theorem readCString_write (s : CStr) (r : List Nat) :
    readCString (s.write ++ r) = .ok (s, r) := by
  have h : s.write ++ r = s.val ++ 0 :: r := by
    simp [CStr.write]
  rw [h, readCString, takeUntilNul_append s.val r s.prop]

/-- Round trip for `PLoc` with trailing bytes: decoding the encoding of a
value whose port fits in a u16 recovers the value and the trailing bytes. -/
theorem readPLoc_write (p : PLoc) (r : List Nat)
    (hp : p.listening_tcp_port < 65536) :
    readPLoc (p.write ++ r) = .ok (p, r) := by
  have hmod : p.listening_tcp_port % 65536 = p.listening_tcp_port := Nat.mod_eq_of_lt hp
  simp [PLoc.write, List.append_assoc, readPLoc, readU16LE_write, readCString_write, hmod]

/-- Round trip for `PNam` with trailing bytes. -/
theorem readPNam_write (p : PNam) (r : List Nat) :
    readPNam (p.write ++ r) = .ok (p, r) := by
  simp [PNam.write, readPNam, readCString_write]

/-- Reading back a written base header recovers it with its u32 fields
reduced modulo 2^32, leaving the rest of the stream untouched. -/
theorem readCitpHeader_write (h : CitpHeader) (r : List Nat) :
    readCitpHeader (h.write ++ r) = .ok (h.norm, r) := by
  simp [CitpHeader.write, CITP_MAGIC, List.append_assoc, readCitpHeader, readU32LE_write,
    CitpHeader.norm]

/-- Reading back a written PINF header recovers it with its u32 fields
reduced modulo 2^32, leaving the rest of the stream untouched. -/
theorem readHeader_write (h : Header) (r : List Nat) :
    readHeader (h.write ++ r) = .ok (h.norm, r) := by
  simp [Header.write, List.append_assoc, readHeader, readCitpHeader_write, readU32LE_write,
    Header.norm]

/-- A u16 read can only fail with `UnexpectedEof`. -/
theorem readU16LE_err (l : List Nat) (e : Err) (h : readU16LE l = .error e) :
    e = .UnexpectedEof := by
  rcases l with _ | ⟨a, _ | ⟨b, t⟩⟩ <;> simp [readU16LE] at h <;> exact h.symm

/-- A u32 read can only fail with `UnexpectedEof`. -/
theorem readU32LE_err (l : List Nat) (e : Err) (h : readU32LE l = .error e) :
    e = .UnexpectedEof := by
  rcases l with _ | ⟨a, _ | ⟨b, _ | ⟨c, _ | ⟨d, t⟩⟩⟩⟩ <;> simp [readU32LE] at h <;>
    exact h.symm

/-- A cstring read can only fail with `UnterminatedString`. -/
theorem readCString_err (l : List Nat) (e : Err) (h : readCString l = .error e) :
    e = .UnterminatedString := by
  rw [readCString] at h
  split at h
  · exact absurd h (by simp)
  · injection h with h
    exact h.symm

/-- A u16 read on fewer than 2 bytes fails with `UnexpectedEof`. -/
theorem readU16LE_short (l : List Nat) (h : l.length < 2) :
    readU16LE l = .error .UnexpectedEof := by
  rcases l with _ | ⟨a, _ | ⟨b, t⟩⟩
  · rfl
  · rfl
  · simp at h
    omega

/-- A u32 read on fewer than 4 bytes fails with `UnexpectedEof`. -/
theorem readU32LE_short (l : List Nat) (h : l.length < 4) :
    readU32LE l = .error .UnexpectedEof := by
  rcases l with _ | ⟨a, _ | ⟨b, _ | ⟨c, _ | ⟨d, t⟩⟩⟩⟩
  · rfl
  · rfl
  · rfl
  · rfl
  · simp at h
    omega

/-- A stream with no zero byte has no terminator to find. -/
theorem takeUntilNul_none (l : List Nat) (h : l.count 0 = 0) :
    takeUntilNul l = none := by
  induction l with
  | nil => rfl
  | cons b t ih =>
    have hb : b ≠ 0 := by
      intro hb
      rw [hb] at h
      simp [List.count_cons] at h
    have ht : t.count 0 = 0 := by
      rw [List.count_cons] at h
      omega
    simp [takeUntilNul, hb, ih ht]

/-- A successful scan consumes exactly one zero byte of the stream. -/
theorem takeUntilNul_count (l : List Nat) :
    ∀ (s : CStr) (r : List Nat), takeUntilNul l = some (s, r) →
      l.count 0 = r.count 0 + 1 := by
  induction l with
  | nil => intro s r h; exact absurd h (by simp [takeUntilNul])
  | cons b t ih =>
    intro s r h
    by_cases hb : b = 0
    · rw [hb] at h ⊢
      simp [takeUntilNul] at h
      rw [List.count_cons, h.2]
      simp
    · rw [takeUntilNul] at h
      rw [dif_neg hb] at h
      rw [List.count_cons]
      rcases ht : takeUntilNul t with _ | ⟨c, r2⟩
      · rw [ht] at h
        exact absurd h (by simp)
      · rw [ht] at h
        simp at h
        rw [ih c r2 ht, h.2]
        simp [hb]

/-- A stream containing a zero byte scans successfully. -/
theorem takeUntilNul_isSome (l : List Nat) (h : l.count 0 ≠ 0) :
    ∃ s r, takeUntilNul l = some (s, r) := by
  induction l with
  | nil => simp at h
  | cons b t ih =>
    by_cases hb : b = 0
    · refine ⟨⟨[], fun x hx => absurd hx (List.not_mem_nil x)⟩, t, ?_⟩
      rw [hb]
      simp [takeUntilNul]
    · have ht : t.count 0 ≠ 0 := by
        rw [List.count_cons] at h
        simpa [hb] using h
      obtain ⟨s, r, hs⟩ := ih ht
      refine ⟨⟨b :: s.val, ?_⟩, r, ?_⟩
      · intro x hx
        rcases List.mem_cons.mp hx with hx | hx
        · rw [hx]
          exact hb
        · exact s.prop x hx
      · rw [takeUntilNul, dif_neg hb, hs]

/-- A cstring read on a zero-free stream fails with `UnterminatedString`. -/
theorem readCString_count_zero (l : List Nat) (h : l.count 0 = 0) :
    readCString l = .error .UnterminatedString := by
  rw [readCString, takeUntilNul_none l h]

/-- A cstring read on a stream containing a zero succeeds and consumes
exactly one zero of the stream. -/
theorem readCString_count_pos (l : List Nat) (h : l.count 0 ≠ 0) :
    ∃ s r, readCString l = .ok (s, r) ∧ r.count 0 + 1 = l.count 0 := by
  obtain ⟨s, r, hs⟩ := takeUntilNul_isSome l h
  refine ⟨s, r, ?_, ?_⟩
  · rw [readCString, hs]
  · rw [takeUntilNul_count l s r hs]

/-- A `PLoc` read can only fail with `UnexpectedEof` (truncated port) or
`UnterminatedString` (truncated string). -/
theorem readPLoc_err (buf : List Nat) (e : Err) (h : readPLoc buf = .error e) :
    e = .UnexpectedEof ∨ e = .UnterminatedString := by
  rw [readPLoc] at h
  split at h
  next e1 heq =>
    injection h with h2
    exact Or.inl (h2 ▸ readU16LE_err buf e1 heq)
  next port r1 heq =>
    split at h
    next e2 heq2 =>
      injection h with h2
      exact Or.inr (h2 ▸ readCString_err r1 e2 heq2)
    next k r2 heq2 =>
      split at h
      next e3 heq3 =>
        injection h with h2
        exact Or.inr (h2 ▸ readCString_err r2 e3 heq3)
      next n r3 heq3 =>
        split at h
        next e4 heq4 =>
          injection h with h2
          exact Or.inr (h2 ▸ readCString_err r3 e4 heq4)
        next s r4 heq4 =>
          exact absurd h (by simp)

/-- A `PNam` read can only fail with `UnterminatedString`. -/
theorem readPNam_err (buf : List Nat) (e : Err) (h : readPNam buf = .error e) :
    e = .UnterminatedString := by
  rw [readPNam] at h
  split at h
  next e1 heq =>
    injection h with h2
    exact h2 ▸ readCString_err buf e1 heq
  next n r heq =>
    exact absurd h (by simp)

/-- A base header read can only fail with `BadMagic` or `UnexpectedEof`. -/
theorem readCitpHeader_err (buf : List Nat) (e : Err)
    (h : readCitpHeader buf = .error e) : e = .BadMagic ∨ e = .UnexpectedEof := by
  rcases buf with _ | ⟨m0, _ | ⟨m1, _ | ⟨m2, _ | ⟨m3, rest⟩⟩⟩⟩
  · simp [readCitpHeader] at h
    exact Or.inr h.symm
  · simp [readCitpHeader] at h
    exact Or.inr h.symm
  · simp [readCitpHeader] at h
    exact Or.inr h.symm
  · simp [readCitpHeader] at h
    exact Or.inr h.symm
  · rw [readCitpHeader] at h
    split at h
    · split at h
      next e1 heq =>
        injection h with h2
        exact Or.inr (h2 ▸ readU32LE_err rest e1 heq)
      next v r1 heq =>
        split at h
        next e2 heq2 =>
          injection h with h2
          exact Or.inr (h2 ▸ readU32LE_err r1 e2 heq2)
        next ts r2 heq2 =>
          split at h
          next e3 heq3 =>
            injection h with h2
            exact Or.inr (h2 ▸ readU32LE_err r2 e3 heq3)
          next pi r3 heq3 =>
            split at h
            next e4 heq4 =>
              injection h with h2
              exact Or.inr (h2 ▸ readU32LE_err r3 e4 heq4)
            next lt r4 heq4 =>
              exact absurd h (by simp)
    · injection h with h2
      exact Or.inl h2.symm

/-- A PINF header read can only fail with `BadMagic` or `UnexpectedEof`. -/
theorem readHeader_err (buf : List Nat) (e : Err) (h : readHeader buf = .error e) :
    e = .BadMagic ∨ e = .UnexpectedEof := by
  rw [readHeader] at h
  split at h
  next e1 heq =>
    injection h with h2
    exact h2 ▸ readCitpHeader_err buf e1 heq
  next c r1 heq =>
    split at h
    next e2 heq2 =>
      injection h with h2
      exact Or.inr (h2 ▸ readU32LE_err r1 e2 heq2)
    next ct r2 heq2 =>
      exact absurd h (by simp)

/-- A `Message<PLoc>` read can only fail with `BadMagic`, `UnexpectedEof`
or `UnterminatedString`. -/
theorem readMessagePLoc_err (buf : List Nat) (e : Err)
    (h : readMessagePLoc buf = .error e) :
    e = .BadMagic ∨ e = .UnexpectedEof ∨ e = .UnterminatedString := by
  rw [readMessagePLoc] at h
  split at h
  next e1 heq =>
    injection h with h2
    rcases h2 ▸ readHeader_err buf e1 heq with h3 | h3
    · exact Or.inl h3
    · exact Or.inr (Or.inl h3)
  next hd r1 heq =>
    split at h
    next e2 heq2 =>
      injection h with h2
      rcases h2 ▸ readPLoc_err r1 e2 heq2 with h3 | h3
      · exact Or.inr (Or.inl h3)
      · exact Or.inr (Or.inr h3)
    next m r2 heq2 =>
      exact absurd h (by simp)

/-- The raw string primitive on the content of a `CStr` value succeeds and
produces exactly the content followed by the null terminator. -/
theorem writeCStringChecked_cstr (s : CStr) :
    writeCStringChecked s.val = some s.write := by
  rw [writeCStringChecked, if_pos s.prop]
  rfl

/-- C1: for every `PNam` and `PLoc` value, `size_bytes` equals the byte
length of the encoding: the null-terminated length of the name for `PNam`,
and 2 (port) plus the null-terminated lengths of kind, name and state for
`PLoc`. -/
theorem c1_size_bytes_eq_encode_length :
    (∀ p : PNam, p.size_bytes = p.write.length) ∧
    (∀ p : PLoc, p.size_bytes = p.write.length) := by
  constructor
  · intro p
    simp [PNam.size_bytes, PNam.write, CStr.size_bytes, CStr.write, sizeOfCString]
  · intro p
    simp [PLoc.size_bytes, PLoc.write, CStr.size_bytes, CStr.write, sizeOfCString,
      writeU16LE, List.length_append]
    omega

/-- C2: decoding the bytes produced by encoding a valid `PNam` or `PLoc`
value yields the value back (and consumes the whole encoding); validity of
a `PLoc` means its port fits in a u16, the strings being zero-free by
construction. -/
theorem c2_roundtrip :
    (∀ p : PNam, readPNam p.write = .ok (p, [])) ∧
    (∀ p : PLoc, p.listening_tcp_port < 65536 → readPLoc p.write = .ok (p, [])) := by
  constructor
  · intro p
    have h := readPNam_write p []
    rwa [List.append_nil] at h
  · intro p hp
    have h := readPLoc_write p [] hp
    rwa [List.append_nil] at h

/-- Witness for C2 at concrete values. -/
theorem c2_roundtrip_witness :
    readPNam samplePNam.write = .ok (samplePNam, []) ∧
    samplePLoc.listening_tcp_port < 65536 ∧
    readPLoc samplePLoc.write = .ok (samplePLoc, []) :=
  ⟨c2_roundtrip.1 samplePNam, by decide, c2_roundtrip.2 samplePLoc (by decide)⟩

/-- C3 (counterexample): the 96-byte test packet decodes successfully, but
the kind field of the decoded value is the bytes of "Visualizer" (with a
z), not the bytes of "Visualiser" (with an s) stated by the claim. -/
theorem c3_counterexample :
    readMessagePLoc plocPacket = .ok (plocDecoded, []) ∧
    decide (plocDecoded.message.kind.val = visualiserBytes) = false := by
  constructor
  · decide
  · decide

/-- C3 (amended): the 96-byte test packet decodes to a `PLoc` message with
listening port 0xfa4a, kind "Visualizer", name
"Capture @ Hugos-MacBook-Pro.local (192.168.168.80)" and state "Running",
and re-encoding the decoded message reproduces the same 96 bytes. -/
theorem c3_packet_roundtrip :
    readMessagePLoc plocPacket = .ok (plocDecoded, []) ∧
    plocDecoded.message.listening_tcp_port = 0xfa4a ∧
    plocDecoded.message.kind.val = visualizerBytes ∧
    plocDecoded.message.name.val = captureNameBytes ∧
    plocDecoded.message.state.val = runningBytes ∧
    writeMessagePLoc plocDecoded = plocPacket := by
  refine ⟨by decide, by decide, by decide, by decide, by decide, by decide⟩

/-- C4 (counterexample): a packet whose header chain is well formed but
whose message tag is "XXXX" (outside \x7b"PNam", "PLoc"\x7d, as the last
two conjuncts record) decodes successfully as a `Message<PLoc>` instead of
failing with `UnknownMessageTag`. -/
theorem c4_counterexample :
    readMessagePLoc (writeMessagePLoc unknownTagMsg) = .ok (unknownTagMsg, []) ∧
    decide (unknownTagMsg.pinf_header.content_type = PNAM_TAG) = false ∧
    decide (unknownTagMsg.pinf_header.content_type = PLOC_TAG) = false := by
  refine ⟨by decide, by decide, by decide⟩

/-- C4 (amended): decoding `Message<PLoc>` never inspects the message tag:
no input makes it fail with `UnknownMessageTag`, and a well-formed header
chain carrying an arbitrary message tag followed by a valid `PLoc` payload
decodes successfully, preserving the tag as data. -/
theorem c4_no_unknown_tag_check :
    (∀ (buf : List Nat) (t : Nat),
      decide (readMessagePLoc buf = .error (.UnknownMessageTag t)) = false) ∧
    (∀ (h : Header) (p : PLoc), p.listening_tcp_port < 65536 →
      readMessagePLoc (h.write ++ p.write) = .ok (⟨h.norm, p⟩, [])) := by
  constructor
  · intro buf t
    rw [decide_eq_false_iff_not]
    intro h
    rcases readMessagePLoc_err buf _ h with h3 | h3 | h3 <;> simp at h3
  · intro h p hp
    have h2 := readPLoc_write p [] hp
    rw [List.append_nil] at h2
    simp [readMessagePLoc, readHeader_write, h2]

/-- Witness for C4's amended theorem at concrete values. -/
theorem c4_no_unknown_tag_check_witness :
    decide (readMessagePLoc [] = .error (.UnknownMessageTag 0)) = false ∧
    readMessagePLoc (unknownTagMsg.pinf_header.write ++ emptyPLoc.write) =
      .ok (⟨unknownTagMsg.pinf_header.norm, emptyPLoc⟩, []) :=
  ⟨c4_no_unknown_tag_check.1 [] 0,
   c4_no_unknown_tag_check.2 unknownTagMsg.pinf_header emptyPLoc (by decide)⟩

/-- C5 (counterexample): a packet whose base-header layer tag is "XXXX"
(not "PINF", as the second conjunct records) decodes successfully instead
of failing with `WrongLayer`. -/
theorem c5_counterexample :
    readMessagePLoc (writeMessagePLoc wrongLayerMsg) = .ok (wrongLayerMsg, []) ∧
    decide (wrongLayerMsg.pinf_header.citp_header.layer_tag = PINF_TAG) = false := by
  refine ⟨by decide, by decide⟩

/-- C5 (amended): neither the PINF header decode nor the `Message<PLoc>`
decode checks the layer tag: no input buffer makes either fail with
`WrongLayer`; the layer tag is read and preserved as plain data. -/
theorem c5_no_layer_check :
    ∀ buf : List Nat,
      decide (readHeader buf = .error .WrongLayer) = false ∧
      decide (readMessagePLoc buf = .error .WrongLayer) = false := by
  intro buf
  constructor
  · rw [decide_eq_false_iff_not]
    intro h
    rcases readHeader_err buf _ h with h3 | h3 <;> simp at h3
  · rw [decide_eq_false_iff_not]
    intro h
    rcases readMessagePLoc_err buf _ h with h3 | h3 | h3 <;> simp at h3

/-- C6: truncation behaviour. A `PLoc` read on a buffer that ends partway
through the 2-byte port fails with `UnexpectedEof`; a `PLoc` read on a
buffer that ends before the null terminator of one of its three string
fields (fewer than three zero bytes follow the port) fails with
`UnterminatedString`; a PINF header read on a buffer that ends partway
through the u32 content-type field fails with `UnexpectedEof`. -/
theorem c6_truncation :
    (∀ buf : List Nat, buf.length < 2 → readPLoc buf = .error .UnexpectedEof) ∧
    (∀ buf : List Nat, 2 ≤ buf.length → (buf.drop 2).count 0 < 3 →
      readPLoc buf = .error .UnterminatedString) ∧
    (∀ (h : CitpHeader) (t : List Nat), t.length < 4 →
      readHeader (h.write ++ t) = .error .UnexpectedEof) := by
  refine ⟨?_, ?_, ?_⟩
  · intro buf h1
    rw [readPLoc, readU16LE_short buf h1]
  · intro buf h1 h2
    rcases buf with _ | ⟨a, _ | ⟨b, t⟩⟩
    · simp at h1
    · simp at h1
    · simp only [List.drop_succ_cons, List.drop_zero] at h2
      by_cases ht : t.count 0 = 0
      · simp [readPLoc, readU16LE, readCString_count_zero t ht]
      · obtain ⟨s1, r1, hs1, hc1⟩ := readCString_count_pos t ht
        by_cases hr1 : r1.count 0 = 0
        · simp [readPLoc, readU16LE, hs1, readCString_count_zero r1 hr1]
        · obtain ⟨s2, r2, hs2, hc2⟩ := readCString_count_pos r1 hr1
          have hr2 : r2.count 0 = 0 := by omega
          simp [readPLoc, readU16LE, hs1, hs2, readCString_count_zero r2 hr2]
  · intro h t ht
    simp [readHeader, readCitpHeader_write, readU32LE_short t ht]

/-- Witness for C6 at concrete inputs. -/
theorem c6_truncation_witness :
    readPLoc [7] = .error .UnexpectedEof ∧
    readPLoc [1, 2, 3, 0, 4] = .error .UnterminatedString ∧
    readHeader (CitpHeader.write ⟨1, 96, 1, PINF_TAG⟩ ++ [80, 76]) =
      .error .UnexpectedEof :=
  ⟨c6_truncation.1 [7] (by decide),
   c6_truncation.2.1 [1, 2, 3, 0, 4] (by decide) (by decide),
   c6_truncation.2.2 ⟨1, 96, 1, PINF_TAG⟩ [80, 76] (by decide)⟩

/-- C7: encoding a `PLoc` writes exactly the port as 2-byte little-endian,
then kind, name and state, each as its content followed by one null
terminator, with no length prefixes or padding; decoding consumes the
fields in the same order, returning exactly the bytes that follow. Both
directions are plain functions, hence deterministic. -/
theorem c7_field_order :
    ∀ (port : Nat) (k n s : CStr) (rest : List Nat), port < 65536 →
      PLoc.write ⟨port, k, n, s⟩ =
        writeU16LE port ++ (k.val ++ [0]) ++ (n.val ++ [0]) ++ (s.val ++ [0]) ∧
      readPLoc (PLoc.write ⟨port, k, n, s⟩ ++ rest) = .ok (⟨port, k, n, s⟩, rest) := by
  intro port k n s rest hp
  exact ⟨rfl, readPLoc_write ⟨port, k, n, s⟩ rest hp⟩

/-- Witness for C7 at concrete values. -/
theorem c7_field_order_witness :
    PLoc.write samplePLoc =
      writeU16LE 258 ++ ([65] ++ [0]) ++ ([66, 67] ++ [0]) ++ ([68] ++ [0]) ∧
    readPLoc (PLoc.write samplePLoc ++ [9]) = .ok (samplePLoc, [9]) :=
  ⟨(c7_field_order 258 samplePLoc.kind samplePLoc.name samplePLoc.state [9] (by decide)).1,
   (c7_field_order 258 samplePLoc.kind samplePLoc.name samplePLoc.state [9] (by decide)).2⟩

/-- C8 (counterexample): with the envelope encode operation exactly as the
spec words it (total_size = 20-byte overhead + payload size), the
total_size field written into the packet does not equal the packet's
actual encoded length: for the minimal payload the field holds 25 while
the packet is 29 bytes long, because the real header overhead is 24 bytes
(20-byte base header + 4-byte message tag), not 20. -/
theorem c8_counterexample :
    decide ((envelopeEncodeSpec PLOC_TAG emptyPLoc).pinf_header.citp_header.total_size =
      (writeMessagePLoc (envelopeEncodeSpec PLOC_TAG emptyPLoc)).length) = false ∧
    (envelopeEncodeSpec PLOC_TAG emptyPLoc).pinf_header.citp_header.total_size = 25 ∧
    (writeMessagePLoc (envelopeEncodeSpec PLOC_TAG emptyPLoc)).length = 29 := by
  refine ⟨by decide, by decide, by decide⟩

/-- C8 (amended): for every packet produced by the envelope encode
operation with the overhead the code's layout dictates (24 bytes: 20-byte
base header plus 4-byte message tag), the total_size field in the base
header equals the full encoded byte length, which is 24 plus the payload's
`size_bytes`. -/
theorem c8_total_size :
    ∀ (tag : Nat) (p : PLoc),
      (envelopeEncode tag p).pinf_header.citp_header.total_size =
        (writeMessagePLoc (envelopeEncode tag p)).length ∧
      (writeMessagePLoc (envelopeEncode tag p)).length = 24 + p.size_bytes := by
  intro tag p
  have hlen : (writeMessagePLoc (envelopeEncode tag p)).length = 24 + p.size_bytes := by
    simp [writeMessagePLoc, writeMessage, envelopeEncode, Header.write, CitpHeader.write,
      CITP_MAGIC, writeU32LE, PLoc.write, CStr.write, writeU16LE, PLoc.size_bytes,
      CStr.size_bytes, sizeOfCString, List.length_append]
    omega
  refine ⟨?_, hlen⟩
  rw [hlen]
  rfl

/-- C9: no decode operation ever fails with `SizeMismatch`, for any input
buffer: the declared total_size is never cross-checked against the bytes
available or consumed. In particular a packet whose declared total_size is
9999 but whose actual length is 29 bytes still decodes successfully. -/
theorem c9_no_size_mismatch :
    (∀ buf : List Nat,
      decide (readCitpHeader buf = .error .SizeMismatch) = false ∧
      decide (readHeader buf = .error .SizeMismatch) = false ∧
      decide (readPNam buf = .error .SizeMismatch) = false ∧
      decide (readPLoc buf = .error .SizeMismatch) = false ∧
      decide (readMessagePLoc buf = .error .SizeMismatch) = false) ∧
    readMessagePLoc (writeMessagePLoc badSizeMsg) = .ok (badSizeMsg, []) := by
  constructor
  · intro buf
    refine ⟨?_, ?_, ?_, ?_, ?_⟩ <;> rw [decide_eq_false_iff_not] <;> intro h
    · rcases readCitpHeader_err buf _ h with h3 | h3 <;> simp at h3
    · rcases readHeader_err buf _ h with h3 | h3 <;> simp at h3
    · have h3 := readPNam_err buf _ h
      simp at h3
    · rcases readPLoc_err buf _ h with h3 | h3 <;> simp at h3
    · rcases readMessagePLoc_err buf _ h with h3 | h3 | h3 <;> simp at h3
  · decide

/-- C10: each string field of `PNam` and `PLoc` has type `CStr`, which by
construction contains no interior zero byte; consequently encoding a
string field always emits its content followed by exactly one zero byte,
and routing the payload encoders through the fallible raw string primitive
(which rejects embedded zeros) always succeeds with the same output — the
embedded-NUL failure is unreachable from the payload encode operations. -/
theorem c10_no_interior_nul :
    ∀ (pn : PNam) (pl : PLoc),
      NoNul pn.name.val ∧ NoNul pl.kind.val ∧ NoNul pl.name.val ∧ NoNul pl.state.val ∧
      pn.name.write = pn.name.val ++ [0] ∧
      PNam.writeChecked pn = some pn.write ∧
      PLoc.writeChecked pl = some pl.write := by
  intro pn pl
  refine ⟨pn.name.prop, pl.kind.prop, pl.name.prop, pl.state.prop, rfl, ?_, ?_⟩
  · rw [PNam.writeChecked, writeCStringChecked_cstr]
    rfl
  · rw [PLoc.writeChecked]
    rw [writeCStringChecked_cstr, writeCStringChecked_cstr, writeCStringChecked_cstr]
    rfl

end Citp
